import Mathlib

/-!
Shallow embedding of the xynenyx-gateway core components, translated from the
Go sources:

* `src/middleware/circuitbreaker.go` — the per-backend circuit breaker
  (`CircuitBreaker`, `Call`, `Reset`, `ForceHalfOpen`);
* `src/middleware/ratelimit.go` — the per-key token bucket (`TokenBucket.Allow`);
* the reverse-proxy handler (`ProxyHandler`) and readiness handler
  (`ReadyHandler`) from the `handlers` package.

Conventions of the embedding:

* Go `time.Time` values are modelled as `Option Nat`: `none` is the zero
  `time.Time{}` value (what `IsZero()` tests), `some t` is any non-zero
  instant.  Instants and durations are natural-number seconds; `time.Since x`
  at instant `now` is `now - x` (theorems that depend on it carry a clock
  monotonicity hypothesis `t ≤ now`, matching Go's monotonic clock reading).
* Go `float64` arithmetic in the token bucket is modelled over `ℚ`; the values
  exercised by the theorems and witnesses are exactly representable in
  `float64`, so the rational computation coincides with the floating one there.
* Go `int` counters that are only ever incremented from 0 or reset to 0
  (`failures`) are modelled as `Nat`.
-/

namespace Middleware

/-- `CircuitState` from circuitbreaker.go: `StateClosed | StateOpen | StateHalfOpen`. -/
inductive CircuitState
  | stateClosed
  | stateOpen
  | stateHalfOpen
deriving DecidableEq, Repr

/-- The `CircuitBreaker` struct from circuitbreaker.go (the mutex is not part of
the sequential model).  `lastFailTime = none` models the zero `time.Time`. -/
structure CircuitBreaker where
  failures : Nat
  maxFailures : Nat
  timeout : Nat
  lastFailTime : Option Nat
  state : CircuitState
deriving DecidableEq, Repr

/-- `NewCircuitBreaker(maxFailures, timeout)`: zero failures, zero
`lastFailTime`, state `StateClosed`. -/
def NewCircuitBreaker (maxFailures timeout : Nat) : CircuitBreaker :=
  { failures := 0
    maxFailures := maxFailures
    timeout := timeout
    lastFailTime := none
    state := .stateClosed }

/-- The entry phase of `Call` (lines 44-58 of circuitbreaker.go): when the state
is `StateOpen`, either move to `StateHalfOpen` with `failures = 0` (if
`lastFailTime.IsZero()` or the timeout has elapsed) and proceed, or return the
"circuit breaker is open" error without invoking the operation (`none`). -/
def CircuitBreaker.callEnter (cb : CircuitBreaker) (now : Nat) : Option CircuitBreaker :=
  if cb.state = .stateOpen then
    match cb.lastFailTime with
    | none => some { cb with state := .stateHalfOpen, failures := 0 }
    | some t =>
      if cb.timeout ≤ now - t then
        some { cb with state := .stateHalfOpen, failures := 0 }
      else
        none
  else
    some cb

/-- The completion phase of `Call` (lines 63-88): on operation failure increment
`failures`, record `lastFailTime`, and open the circuit from `StateHalfOpen`
immediately or from the threshold `failures ≥ maxFailures`; on success close a
half-open circuit and reset `failures` to 0. -/
def CircuitBreaker.settle (cb : CircuitBreaker) (opFailed : Bool) (now : Nat) : CircuitBreaker :=
  match opFailed with
  | true =>
    let cb1 := { cb with failures := cb.failures + 1, lastFailTime := some now }
    if cb1.state = .stateHalfOpen then
      { cb1 with state := .stateOpen }
    else if cb1.maxFailures ≤ cb1.failures then
      { cb1 with state := .stateOpen }
    else
      cb1
  | false =>
    if cb.state = .stateHalfOpen then
      { cb with state := .stateClosed, failures := 0 }
    else
      { cb with failures := 0 }

/-- The error value returned by `Call`: either the distinguished
"circuit breaker is open" error, or the error returned by the wrapped
operation itself. -/
inductive CallError
  | circuitOpen
  | opError
deriving DecidableEq, Repr

/-- Result of one `Call`: the breaker afterwards, how many times the wrapped
operation was invoked, and the returned error (if any). -/
structure CallOutcome where
  cb : CircuitBreaker
  invocations : Nat
  err : Option CallError
deriving DecidableEq, Repr

/-- `CircuitBreaker.Call(fn)` from circuitbreaker.go, with the wrapped
operation abstracted by whether it fails (`opFailed`) and the current instant
`now`.  The fast-fail path leaves the breaker untouched and performs zero
invocations; otherwise the operation runs exactly once (the single `fn()` call
at line 61) and the breaker settles on its outcome. -/
def CircuitBreaker.Call (cb : CircuitBreaker) (opFailed : Bool) (now : Nat) : CallOutcome :=
  match cb.callEnter now with
  | none => { cb := cb, invocations := 0, err := some .circuitOpen }
  | some cb1 =>
      { cb := cb1.settle opFailed now
        invocations := 1
        err := if opFailed then some .opError else none }

/-- `Reset` (lines 101-107): force `StateClosed`, zero failures, zero
`lastFailTime`. -/
def CircuitBreaker.Reset (cb : CircuitBreaker) : CircuitBreaker :=
  { cb with state := .stateClosed, failures := 0, lastFailTime := none }

/-- `ForceHalfOpen` (lines 110-115): force `StateHalfOpen` and zero
`lastFailTime`. -/
def CircuitBreaker.ForceHalfOpen (cb : CircuitBreaker) : CircuitBreaker :=
  { cb with state := .stateHalfOpen, lastFailTime := none }

/-- One operation applied to a breaker: a `Call` (with the wrapped operation's
outcome and the instant), a `Reset`, or a `ForceHalfOpen`. -/
inductive BreakerOp
  | call (opFailed : Bool) (now : Nat)
  | reset
  | forceHalfOpen
deriving DecidableEq, Repr

/-- Apply one operation to a breaker. -/
def applyBreakerOp (cb : CircuitBreaker) : BreakerOp → CircuitBreaker
  | .call f n => (cb.Call f n).cb
  | .reset => cb.Reset
  | .forceHalfOpen => cb.ForceHalfOpen

/-- Run a sequence of operations on a breaker. -/
def runBreakerOps (cb : CircuitBreaker) : List BreakerOp → CircuitBreaker
  | [] => cb
  | op :: ops => runBreakerOps (applyBreakerOp cb op) ops

/-- Run a sequence of failing `Call`s at the given instants. -/
def failTimes (cb : CircuitBreaker) : List Nat → CircuitBreaker
  | [] => cb
  | t :: ts => failTimes ((cb.Call true t).cb) ts

theorem callEnter_of_not_open (cb : CircuitBreaker) (now : Nat)
    (h : cb.state ≠ .stateOpen) : cb.callEnter now = some cb := by
  simp [CircuitBreaker.callEnter, h]

theorem callEnter_some_not_open (cb cb1 : CircuitBreaker) (now : Nat)
    (h : cb.callEnter now = some cb1) : cb1.state ≠ .stateOpen := by
  unfold CircuitBreaker.callEnter at h
  by_cases hs : cb.state = .stateOpen
  · simp [hs] at h
    cases hl : cb.lastFailTime with
    | none =>
      rw [hl] at h
      simp at h
      simp [← h]
    | some t =>
      rw [hl] at h
      by_cases ht : cb.timeout ≤ now - t
      · simp [ht] at h
        simp [← h]
      · simp [ht] at h
  · simp [hs] at h
    simp [← h, hs]

theorem callEnter_some_lastFailTime (cb cb1 : CircuitBreaker) (now : Nat)
    (h : cb.callEnter now = some cb1) : cb1.lastFailTime = cb.lastFailTime := by
  unfold CircuitBreaker.callEnter at h
  by_cases hs : cb.state = .stateOpen
  · simp [hs] at h
    cases hl : cb.lastFailTime with
    | none =>
      rw [hl] at h
      simp at h
      simp [← h, hl]
    | some t =>
      rw [hl] at h
      by_cases ht : cb.timeout ≤ now - t
      · simp [ht] at h
        simp [← h, hl]
      · simp [ht] at h
  · simp [hs] at h
    simp [← h]

theorem settle_fail_lastFailTime (cb : CircuitBreaker) (now : Nat) :
    (cb.settle true now).lastFailTime = some now := by
  simp only [CircuitBreaker.settle]
  split
  · rfl
  · split <;> rfl

theorem settle_success_state (cb : CircuitBreaker) (now : Nat) :
    (cb.settle false now).state = .stateClosed ∨
      ((cb.settle false now).state = cb.state ∧
        (cb.settle false now).lastFailTime = cb.lastFailTime) := by
  simp only [CircuitBreaker.settle]
  split
  · exact Or.inl rfl
  · exact Or.inr ⟨rfl, rfl⟩

theorem call_closed_fail (cb : CircuitBreaker) (now : Nat)
    (h : cb.state = .stateClosed) :
    (cb.Call true now).cb =
      if cb.maxFailures ≤ cb.failures + 1 then
        { cb with failures := cb.failures + 1, lastFailTime := some now,
                  state := .stateOpen }
      else
        { cb with failures := cb.failures + 1, lastFailTime := some now } := by
  have henter := callEnter_of_not_open cb now (by simp [h])
  simp only [CircuitBreaker.Call, henter, CircuitBreaker.settle]
  simp only [h]
  split
  · simp_all
  · split <;> rfl

/-- From `StateClosed`, every failing call either opens the circuit (threshold
reached) or stays `StateClosed` accumulating `failures`; a run of failing calls
whose length tops up `failures` to `maxFailures` ends with the circuit open. -/
theorem failTimes_opens (ts : List Nat) :
    ∀ cb : CircuitBreaker, cb.state = .stateClosed →
      cb.failures + ts.length = cb.maxFailures → ts ≠ [] →
      (failTimes cb ts).state = .stateOpen := by
  induction ts with
  | nil => intro cb _ _ hne; exact absurd rfl hne
  | cons t ts ih =>
    intro cb hstate hsum _
    rw [failTimes, call_closed_fail cb t hstate]
    by_cases hmax : cb.maxFailures ≤ cb.failures + 1
    · rw [if_pos hmax]
      cases ts with
      | nil => rfl
      | cons t' ts' =>
        simp only [List.length_cons] at hsum
        omega
    · rw [if_neg hmax]
      cases ts with
      | nil =>
        simp only [List.length_cons, List.length_nil] at hsum
        omega
      | cons t' ts' =>
        apply ih
        · exact hstate
        · simp only [List.length_cons] at hsum ⊢
          omega
        · simp

/-- C3: starting from `Closed` with zero failures, after exactly `maxFailures`
consecutive failing `Call`s the state is `Open`; a succeeding recovery trial in
`HalfOpen` moves the state to `Closed` with `consecutiveFailures` reset to 0; a
failing trial in `HalfOpen` moves the state back to `Open` and records a new
`lastFailureTime`. -/
theorem breaker_transitions :
    (∀ (cb : CircuitBreaker) (ts : List Nat),
      cb.state = .stateClosed → cb.failures = 0 → 1 ≤ cb.maxFailures →
      ts.length = cb.maxFailures → (failTimes cb ts).state = .stateOpen) ∧
    (∀ (cb : CircuitBreaker) (now : Nat), cb.state = .stateHalfOpen →
      (cb.Call false now).cb.state = .stateClosed ∧
        (cb.Call false now).cb.failures = 0) ∧
    (∀ (cb : CircuitBreaker) (now : Nat), cb.state = .stateHalfOpen →
      (cb.Call true now).cb.state = .stateOpen ∧
        (cb.Call true now).cb.lastFailTime = some now) := by
  refine ⟨?_, ?_, ?_⟩
  · intro cb ts h0 hf hmax hlen
    apply failTimes_opens ts cb h0
    · omega
    · intro hnil
      rw [hnil] at hlen
      simp only [List.length_nil] at hlen
      omega
  · intro cb now hs
    have henter := callEnter_of_not_open cb now (by simp [hs])
    simp [CircuitBreaker.Call, henter, CircuitBreaker.settle, hs]
  · intro cb now hs
    have henter := callEnter_of_not_open cb now (by simp [hs])
    simp [CircuitBreaker.Call, henter, CircuitBreaker.settle, hs]

/-- Witness for `breaker_transitions`: a fresh breaker with `maxFailures = 3`
opens after the three failing calls `[1, 2, 3]`; a half-open breaker closes on a
succeeding trial and re-opens (with the new failure time) on a failing one. -/
theorem breaker_transitions_witness :
    (failTimes (NewCircuitBreaker 3 30) [1, 2, 3]).state = .stateOpen ∧
    ((⟨0, 3, 30, some 5, .stateHalfOpen⟩ : CircuitBreaker).Call false 40).cb.state
        = .stateClosed ∧
    ((⟨0, 3, 30, some 5, .stateHalfOpen⟩ : CircuitBreaker).Call true 40).cb.lastFailTime
        = some 40 :=
  ⟨breaker_transitions.1 (NewCircuitBreaker 3 30) [1, 2, 3] rfl rfl (by decide) (by decide),
   (breaker_transitions.2.1 ⟨0, 3, 30, some 5, .stateHalfOpen⟩ 40 rfl).1,
   (breaker_transitions.2.2 ⟨0, 3, 30, some 5, .stateHalfOpen⟩ 40 rfl).2⟩

/-- C2: when the breaker is `Open` with last failure at `t` and the open timeout
has not yet elapsed at `now`, `Call` returns the distinguished
"circuit breaker is open" error without invoking the operation and leaves the
breaker unchanged; once the timeout has elapsed, `Call` transitions the breaker
to `HalfOpen` (with failures reset) and invokes the operation exactly once as
the recovery trial. -/
theorem breaker_fail_fast (cb : CircuitBreaker) (t now : Nat) (opFailed : Bool)
    (hstate : cb.state = .stateOpen) (hlast : cb.lastFailTime = some t)
    (_hmono : t ≤ now) :
    (now - t < cb.timeout →
      cb.Call opFailed now = { cb := cb, invocations := 0, err := some .circuitOpen }) ∧
    (cb.timeout ≤ now - t →
      cb.callEnter now = some { cb with state := .stateHalfOpen, failures := 0 } ∧
      (cb.Call opFailed now).invocations = 1) := by
  constructor
  · intro hlt
    have hcond : ¬ cb.timeout ≤ now - t := Nat.not_le.mpr hlt
    simp [CircuitBreaker.Call, CircuitBreaker.callEnter, hstate, hlast, hcond]
  · intro hle
    have henter : cb.callEnter now
        = some { cb with state := .stateHalfOpen, failures := 0 } := by
      simp [CircuitBreaker.callEnter, hstate, hlast, hle]
    exact ⟨henter, by simp [CircuitBreaker.Call, henter]⟩

/-- Witness for `breaker_fail_fast`: a breaker opened at instant 100 with a
30-second timeout rejects a call at instant 110 without invoking the operation,
and at instant 140 it half-opens and invokes the trial exactly once. -/
theorem breaker_fail_fast_witness :
    (CircuitBreaker.Call ⟨3, 3, 30, some 100, .stateOpen⟩ false 110 =
      { cb := ⟨3, 3, 30, some 100, .stateOpen⟩, invocations := 0,
        err := some .circuitOpen }) ∧
    (CircuitBreaker.Call ⟨3, 3, 30, some 100, .stateOpen⟩ false 140).invocations = 1 :=
  ⟨(breaker_fail_fast ⟨3, 3, 30, some 100, .stateOpen⟩ 100 110 false rfl rfl
      (by decide)).1 (by decide),
   ((breaker_fail_fast ⟨3, 3, 30, some 100, .stateOpen⟩ 100 140 false rfl rfl
      (by decide)).2 (by decide)).2⟩

/-- The invariant of claim C10, as a predicate on breakers. -/
def openImpliesFailTime (cb : CircuitBreaker) : Prop :=
  cb.state = .stateOpen → cb.lastFailTime ≠ none

theorem applyBreakerOp_preserves (cb : CircuitBreaker) (op : BreakerOp)
    (h : openImpliesFailTime cb) : openImpliesFailTime (applyBreakerOp cb op) := by
  cases op with
  | reset =>
    intro hs
    simp [applyBreakerOp, CircuitBreaker.Reset] at hs
  | forceHalfOpen =>
    intro hs
    simp [applyBreakerOp, CircuitBreaker.ForceHalfOpen] at hs
  | call f n =>
    intro hs
    simp only [applyBreakerOp, CircuitBreaker.Call] at hs ⊢
    cases hE : cb.callEnter n with
    | none =>
      rw [hE] at hs
      exact h hs
    | some cb1 =>
      rw [hE] at hs
      replace hs : (cb1.settle f n).state = .stateOpen := hs
      show (cb1.settle f n).lastFailTime ≠ none
      cases f with
      | true => simp [settle_fail_lastFailTime]
      | false =>
        rcases settle_success_state cb1 n with hcl | ⟨hst, _⟩
        · rw [hcl] at hs
          exact nomatch hs
        · rw [hst] at hs
          exact absurd hs (callEnter_some_not_open cb cb1 n hE)

theorem runBreakerOps_preserves (ops : List BreakerOp) :
    ∀ cb : CircuitBreaker, openImpliesFailTime cb →
      openImpliesFailTime (runBreakerOps cb ops) := by
  induction ops with
  | nil => intro cb h; exact h
  | cons op ops ih =>
    intro cb h
    exact ih _ (applyBreakerOp_preserves cb op h)

/-- C10: in every state reachable from `NewCircuitBreaker` by `Call`, `Reset`
and `ForceHalfOpen` operations, `state = Open` implies a non-zero
`lastFailTime`; the `lastFailTime.IsZero()` escape in `Call` therefore never
lets an `Open` breaker bypass the open-timeout check. -/
theorem breaker_open_has_fail_time (maxFailures timeout : Nat) (ops : List BreakerOp)
    (h : (runBreakerOps (NewCircuitBreaker maxFailures timeout) ops).state = .stateOpen) :
    (runBreakerOps (NewCircuitBreaker maxFailures timeout) ops).lastFailTime ≠ none :=
  runBreakerOps_preserves ops (NewCircuitBreaker maxFailures timeout)
    (by intro hc; simp [NewCircuitBreaker] at hc) h

/-- Witness for `breaker_open_has_fail_time`: a fresh breaker with
`maxFailures = 1` driven open by one failing call has a non-zero
`lastFailTime`. -/
theorem breaker_open_has_fail_time_witness :
    (runBreakerOps (NewCircuitBreaker 1 30) [.call true 5]).lastFailTime ≠ none :=
  breaker_open_has_fail_time 1 30 [.call true 5] (by decide)

/-- The `min(a, b float64)` helper at the bottom of ratelimit.go. -/
def floatMin (a b : ℚ) : ℚ := if a < b then a else b

/-- Go's conversion `time.Duration(x)` of a `float64` to an integer number of
nanoseconds truncates toward zero; in `Allow` the result is then multiplied by
`time.Second`, so the wait is a whole number of seconds obtained by truncating
`needed / rate` toward zero. -/
def durationTrunc (q : ℚ) : Int := if q < 0 then Int.ceil q else Int.floor q

/-- The `TokenBucket` struct from ratelimit.go (mutex omitted; `lastUpdate` is
replaced by passing the elapsed time into `Allow` directly). -/
structure TokenBucket where
  rate : ℚ
  capacity : ℚ
  tokens : ℚ
deriving DecidableEq, Repr

/-- `NewTokenBucket(rate, burst)`: the per-minute `rate` is divided by 60, and
the bucket starts full (`tokens = burst = capacity`). -/
def NewTokenBucket (rate burst : Int) : TokenBucket :=
  { rate := (rate : ℚ) / 60, capacity := (burst : ℚ), tokens := (burst : ℚ) }

/-- Result of one `Allow` call: the updated bucket, the admission decision and
the returned wait time in whole seconds. -/
structure AllowResult where
  bucket : TokenBucket
  allowed : Bool
  waitSeconds : Int
deriving DecidableEq, Repr

/-- The refill step of `Allow` (line 38 of ratelimit.go): add
`elapsed * rate` tokens, capped at `capacity`. -/
def TokenBucket.refillTokens (tb : TokenBucket) (elapsed : ℚ) : ℚ :=
  floatMin tb.capacity (tb.tokens + elapsed * tb.rate)

/-- `TokenBucket.Allow` from ratelimit.go: refill, then spend one token if at
least one is available, otherwise deny with
`waitTime = time.Duration(needed/rate) * time.Second` where
`needed = 1 - tokens`. -/
def TokenBucket.Allow (tb : TokenBucket) (elapsed : ℚ) : AllowResult :=
  if 1 ≤ tb.refillTokens elapsed then
    { bucket := { tb with tokens := tb.refillTokens elapsed - 1 },
      allowed := true, waitSeconds := 0 }
  else
    { bucket := { tb with tokens := tb.refillTokens elapsed },
      allowed := false,
      waitSeconds := durationTrunc ((1 - tb.refillTokens elapsed) / tb.rate) }

/-- Run a sequence of `Allow` calls with the given elapsed times, keeping the
bucket. -/
def allowRun (tb : TokenBucket) : List ℚ → TokenBucket
  | [] => tb
  | e :: es => allowRun (tb.Allow e).bucket es

theorem allow_preserves_bounds (tb : TokenBucket) (e : ℚ)
    (hr : 0 ≤ tb.rate) (he : 0 ≤ e) (h0 : 0 ≤ tb.tokens) (hc : tb.tokens ≤ tb.capacity) :
    (tb.Allow e).bucket.rate = tb.rate ∧
    (tb.Allow e).bucket.capacity = tb.capacity ∧
    0 ≤ (tb.Allow e).bucket.tokens ∧
    (tb.Allow e).bucket.tokens ≤ tb.capacity := by
  have hadd : 0 ≤ tb.tokens + e * tb.rate := by positivity
  have hrefl : 0 ≤ tb.refillTokens e := by
    unfold TokenBucket.refillTokens floatMin
    split
    · linarith
    · exact hadd
  have hrefu : tb.refillTokens e ≤ tb.capacity := by
    unfold TokenBucket.refillTokens floatMin
    split
    · exact le_refl tb.capacity
    · rename_i hlt
      linarith [not_lt.mp hlt]
  unfold TokenBucket.Allow
  by_cases h1 : 1 ≤ tb.refillTokens e
  · rw [if_pos h1]
    refine ⟨rfl, rfl, ?_, ?_⟩
    · show (0:ℚ) ≤ tb.refillTokens e - 1
      linarith
    · show tb.refillTokens e - 1 ≤ tb.capacity
      linarith
  · rw [if_neg h1]
    exact ⟨rfl, rfl, hrefl, hrefu⟩

theorem allowRun_bounds (es : List ℚ) :
    ∀ tb : TokenBucket, (∀ e ∈ es, 0 ≤ e) →
      0 ≤ tb.rate → 0 ≤ tb.tokens → tb.tokens ≤ tb.capacity →
      (allowRun tb es).capacity = tb.capacity ∧
      0 ≤ (allowRun tb es).tokens ∧
      (allowRun tb es).tokens ≤ tb.capacity := by
  induction es with
  | nil => intro tb _ _ h0 hc; exact ⟨rfl, h0, hc⟩
  | cons e es ih =>
    intro tb hmem hr h0 hc
    have he : 0 ≤ e := hmem e (List.mem_cons_self e es)
    obtain ⟨hrate, hcap, h0', hc'⟩ := allow_preserves_bounds tb e hr he h0 hc
    have hstep := ih (tb.Allow e).bucket
      (fun x hx => hmem x (List.mem_cons_of_mem e hx))
      (by rw [hrate]; exact hr) h0' (by rw [hcap]; exact hc')
    rw [allowRun]
    exact ⟨by rw [hstep.1, hcap], hstep.2.1, by rw [← hcap]; exact hstep.2.2⟩

/-- C5: a bucket created by `NewTokenBucket` with non-negative refill rate and
non-negative burst capacity keeps its token count within `[0, capacity]` under
every sequence of `Allow` calls with non-negative elapsed times: each refill is
capped at `capacity` and a token is spent only when at least one is
available. -/
theorem bucket_tokens_bounded (rate burst : Int) (hr : 0 ≤ rate) (hb : 0 ≤ burst)
    (es : List ℚ) (he : ∀ e ∈ es, 0 ≤ e) :
    0 ≤ (allowRun (NewTokenBucket rate burst) es).tokens ∧
    (allowRun (NewTokenBucket rate burst) es).tokens
      ≤ (NewTokenBucket rate burst).capacity := by
  have h := allowRun_bounds es (NewTokenBucket rate burst) he
    (by unfold NewTokenBucket; simp; positivity)
    (by unfold NewTokenBucket; simpa using (by exact_mod_cast hb : (0:ℚ) ≤ (burst:ℚ)))
    (by unfold NewTokenBucket; simp)
  exact ⟨h.2.1, h.2.2⟩

/-- Witness for `bucket_tokens_bounded`: the default configuration
(100 requests/minute, burst 10) with three calls at elapsed times 0, ½ and 2
seconds keeps the token count inside the bounds. -/
theorem bucket_tokens_bounded_witness :
    0 ≤ (allowRun (NewTokenBucket 100 10) [0, 1/2, 2]).tokens ∧
    (allowRun (NewTokenBucket 100 10) [0, 1/2, 2]).tokens
      ≤ (NewTokenBucket 100 10).capacity :=
  bucket_tokens_bounded 100 10 (by decide) (by decide) [0, 1/2, 2]
    (by with_unfolding_all decide)

/-- Counterexample to C4 as stated: for the bucket `NewTokenBucket 60 1`
(1 token/second, burst 1), spending the initial token and calling `Allow`
again after half a second leaves `tokens = 1/2`, so the call is denied; the
code returns `waitSeconds = 0` (truncation), while the claim's formula
`ceil((1 − tokens)/refillRate) = ceil(1/2) = 1`. -/
theorem allow_retry_after_not_ceil :
    (((NewTokenBucket 60 1).Allow 0).bucket.Allow (1/2)).allowed = false ∧
    (((NewTokenBucket 60 1).Allow 0).bucket.Allow (1/2)).waitSeconds = 0 ∧
    Int.ceil ((1 - (((NewTokenBucket 60 1).Allow 0).bucket.Allow (1/2)).bucket.tokens) /
        (((NewTokenBucket 60 1).Allow 0).bucket.Allow (1/2)).bucket.rate) = 1 := by
  with_unfolding_all decide

/-- C4 amended: on every denied `Allow` call (with positive refill rate), the
returned wait equals `floor((1 − tokens)/refillRate)` seconds — Go's
`time.Duration(float64)` conversion truncates toward zero — not the ceiling. -/
theorem allow_retry_after_floor (tb : TokenBucket) (elapsed : ℚ)
    (hrate : 0 < tb.rate)
    (hdeny : (tb.Allow elapsed).allowed = false) :
    (tb.Allow elapsed).waitSeconds =
      Int.floor ((1 - (tb.Allow elapsed).bucket.tokens) / tb.rate) := by
  unfold TokenBucket.Allow at hdeny ⊢
  by_cases h1 : 1 ≤ tb.refillTokens elapsed
  · simp [h1] at hdeny
  · simp only [if_neg h1]
    show durationTrunc ((1 - tb.refillTokens elapsed) / tb.rate) = _
    have hq : 0 ≤ (1 - tb.refillTokens elapsed) / tb.rate :=
      div_nonneg (by linarith [lt_of_not_le h1]) (le_of_lt hrate)
    unfold durationTrunc
    rw [if_neg (not_lt.mpr hq)]

/-- Witness for `allow_retry_after_floor`: the denied call of the
counterexample bucket satisfies the floor formula. -/
theorem allow_retry_after_floor_witness :
    (((NewTokenBucket 60 1).Allow 0).bucket.Allow (1/2)).waitSeconds =
      Int.floor ((1 - (((NewTokenBucket 60 1).Allow 0).bucket.Allow (1/2)).bucket.tokens) /
        ((NewTokenBucket 60 1).Allow 0).bucket.rate) :=
  allow_retry_after_floor ((NewTokenBucket 60 1).Allow 0).bucket (1/2)
    (by with_unfolding_all decide) (by with_unfolding_all decide)

end Middleware

namespace Handlers

open Middleware

/-- The outcome of one downstream round trip attempted by the reverse proxy:
the backend responds with a status, the transport fails (connection error),
or the request-scoped deadline expires during the round trip. -/
inductive DownstreamOutcome
  | responds (status : Nat)
  | transportError
  | deadlineExceeded
deriving DecidableEq, Repr

/-- The observable state of the `statusResponseWriter` wrapper from the proxy
handler: the captured status code (0 until something is written) and the
`written` flag set by `Write`/`WriteHeader`. -/
structure WriterState where
  statusCode : Nat
  written : Bool
deriving DecidableEq, Repr

/-- A fresh `statusResponseWriter` at the start of the request. -/
def initialWriter : WriterState := { statusCode := 0, written := false }

/-- `statusResponseWriter.WriteHeader`: record the status and mark written. -/
def WriterState.writeHeader (w : WriterState) (code : Nat) : WriterState :=
  { statusCode := code, written := true }

/-- `writeErrorWithCORS` from the handlers package: sets headers, calls
`WriteHeader(statusCode)` and writes the body (headers are not modelled). -/
def writeErrorWithCORS (w : WriterState) (code : Nat) : WriterState :=
  w.writeHeader code

/-- Model of `proxy.ServeHTTP` on the `statusResponseWriter`.  When the backend
responds, the response status is written through to the wrapper.  On a
round-trip error — a transport failure, or the request context's deadline
expiring during the round trip — `net/http/httputil`'s ReverseProxy invokes
the configured `ErrorHandler`, which in this repository writes
"Service unavailable" with status 502 via `writeErrorWithCORS`. -/
def proxyServe (w : WriterState) : DownstreamOutcome → WriterState
  | .responds s => w.writeHeader s
  | .transportError => writeErrorWithCORS w 502
  | .deadlineExceeded => writeErrorWithCORS w 502

/-- The error returned by the closure passed to `breaker.Call` in
`ProxyHandler`: `context.DeadlineExceeded` or `http.ErrAbortHandler`. -/
inductive FnErr
  | deadlineErr
  | abortErr
deriving DecidableEq, Repr

/-- Writer state after the closure has run `proxy.ServeHTTP`. -/
def proxyFnWriter (out : DownstreamOutcome) : WriterState :=
  proxyServe initialWriter out

/-- The error returned by the closure passed to `breaker.Call`: first the
`ctx.Err() == context.DeadlineExceeded` check, then
`statusWriter.statusCode >= 500` returns `http.ErrAbortHandler`; 4xx/2xx/3xx
return nil. -/
def proxyFnErr (out : DownstreamOutcome) : Option FnErr :=
  if out = .deadlineExceeded then some .deadlineErr
  else if 500 ≤ (proxyFnWriter out).statusCode then some .abortErr
  else none

/-- Result of one request through `ProxyHandler`: what the caller's response
writer holds, the breaker afterwards, and how many times the backend was
actually called. -/
structure ProxyResult where
  writer : WriterState
  breaker : CircuitBreaker
  backendCalls : Nat
deriving DecidableEq, Repr

/-- `ProxyHandler`'s per-request function: run the closure under
`breaker.Call` and then translate the returned error, writing a synthetic
error response only when nothing has been written yet (first writer wins):
`context.DeadlineExceeded` → 504, "circuit breaker is open" → 503, any other
error → 502. -/
def proxyHandle (cb : CircuitBreaker) (out : DownstreamOutcome) (now : Nat) : ProxyResult :=
  let co := cb.Call (proxyFnErr out).isSome now
  let w := if co.invocations = 0 then initialWriter else proxyFnWriter out
  let w1 :=
    match co.err with
    | some .circuitOpen => if w.written then w else writeErrorWithCORS w 503
    | some .opError =>
        match proxyFnErr out with
        | some .deadlineErr => if w.written then w else writeErrorWithCORS w 504
        | _ => if w.written then w else writeErrorWithCORS w 502
    | none => w
  { writer := w1, breaker := co.cb, backendCalls := co.invocations }

/-- Run a sequence of requests through the proxy, keeping the breaker. -/
def proxyRunBreaker (cb : CircuitBreaker) : List (DownstreamOutcome × Nat) → CircuitBreaker
  | [] => cb
  | (out, n) :: rest => proxyRunBreaker (proxyHandle cb out n).breaker rest

end Handlers

namespace Handlers

open Middleware

/-- C1: outcome classification of the proxy: a downstream response with status
in `[400, 500)` is passed through unchanged to the caller and is not counted
as a circuit-breaker failure (the closure returns nil and the breaker takes
its success path); a downstream status `≥ 500`, a transport error, or a
deadline expiry each count as a breaker failure; consequently a backend
returning 404 three times leaves a `maxFailures = 3` breaker closed, while
the same backend returning 500 three times opens it, and a 4th request within
the open timeout is answered 503 without the backend being called. -/
theorem proxy_outcome_classification :
    (∀ (cb cb1 : CircuitBreaker) (now s : Nat),
      400 ≤ s → s < 500 → cb.callEnter now = some cb1 →
      proxyFnErr (.responds s) = none ∧
      (proxyHandle cb (.responds s) now).writer = { statusCode := s, written := true } ∧
      (proxyHandle cb (.responds s) now).breaker = cb1.settle false now) ∧
    (∀ s : Nat, 500 ≤ s → (proxyFnErr (.responds s)).isSome = true) ∧
    ((proxyFnErr .transportError).isSome = true ∧
      (proxyFnErr .deadlineExceeded).isSome = true) ∧
    ((proxyRunBreaker (NewCircuitBreaker 3 30)
        [(.responds 404, 0), (.responds 404, 1), (.responds 404, 2)]).state
      = .stateClosed) ∧
    ((proxyRunBreaker (NewCircuitBreaker 3 30)
        [(.responds 500, 0), (.responds 500, 1), (.responds 500, 2)]).state
      = .stateOpen) ∧
    ((proxyHandle (proxyRunBreaker (NewCircuitBreaker 3 30)
        [(.responds 500, 0), (.responds 500, 1), (.responds 500, 2)])
        (.responds 500) 10).backendCalls = 0 ∧
      (proxyHandle (proxyRunBreaker (NewCircuitBreaker 3 30)
        [(.responds 500, 0), (.responds 500, 1), (.responds 500, 2)])
        (.responds 500) 10).writer.statusCode = 503) := by
  refine ⟨?_, ?_, ⟨by decide, by decide⟩, by decide, by decide, by decide, by decide⟩
  · intro cb cb1 now s h4 h5 hE
    have hfe : proxyFnErr (.responds s) = none := by
      simp [proxyFnErr, proxyFnWriter, proxyServe, WriterState.writeHeader, initialWriter]
      omega
    have hcall : cb.Call false now =
        { cb := cb1.settle false now, invocations := 1, err := none } := by
      simp [CircuitBreaker.Call, hE]
    refine ⟨hfe, ?_, ?_⟩ <;>
      simp [proxyHandle, hfe, hcall, proxyFnWriter, proxyServe,
        WriterState.writeHeader, initialWriter]
  · intro s hs
    simp [proxyFnErr, proxyFnWriter, proxyServe, WriterState.writeHeader, initialWriter]
    omega

/-- Witness for `proxy_outcome_classification`: a 404 response through a fresh
breaker is passed through as 404 and leaves the breaker on its success path. -/
theorem proxy_outcome_classification_witness :
    proxyFnErr (.responds 404) = none ∧
    (proxyHandle (NewCircuitBreaker 3 30) (.responds 404) 0).writer
      = { statusCode := 404, written := true } ∧
    (proxyHandle (NewCircuitBreaker 3 30) (.responds 404) 0).breaker
      = (NewCircuitBreaker 3 30).settle false 0 ∧
    (proxyFnErr (.responds 500)).isSome = true :=
  ⟨(proxy_outcome_classification.1 (NewCircuitBreaker 3 30) (NewCircuitBreaker 3 30)
      0 404 (by decide) (by decide) (by decide)).1,
   (proxy_outcome_classification.1 (NewCircuitBreaker 3 30) (NewCircuitBreaker 3 30)
      0 404 (by decide) (by decide) (by decide)).2.1,
   (proxy_outcome_classification.1 (NewCircuitBreaker 3 30) (NewCircuitBreaker 3 30)
      0 404 (by decide) (by decide) (by decide)).2.2,
   proxy_outcome_classification.2.1 500 (by decide)⟩

/-- C7 (the code, evaluated at the failing input): when the downstream round
trip exceeds the request deadline, the ReverseProxy's ErrorHandler has already
written 502 before the handler's timeout branch runs, so the first-writer-wins
guard suppresses the 504 and the caller receives 502, not 504 — even though
the deadline is still counted against the breaker. -/
theorem proxy_deadline_writes_502 :
    (proxyHandle (NewCircuitBreaker 5 30) .deadlineExceeded 0).writer
      = { statusCode := 502, written := true } ∧
    (proxyHandle (NewCircuitBreaker 5 30) .deadlineExceeded 0).writer.statusCode ≠ 504 ∧
    (proxyHandle (NewCircuitBreaker 5 30) .deadlineExceeded 0).breaker.failures = 1 := by
  decide

/-- The three backends probed by `ReadyHandler`. -/
inductive ServiceName
  | agent
  | rag
  | llm
deriving DecidableEq, Repr

/-- The per-backend circuit-breaker side effect of `ReadyHandler` on a
successful health probe: for the agent service the breaker is reset whenever
its state is not `Closed`; for the rag and llm services it is reset only when
the state is `Open`.  A failed probe never touches the breaker.
(`CircuitBreakerManager.Reset` always ends in `breaker.Reset()`, which forces
`Closed`.) -/
def readyResetBreaker (svc : ServiceName) (probeHealthy : Bool) (cb : CircuitBreaker) :
    CircuitBreaker :=
  match probeHealthy with
  | false => cb
  | true =>
    match svc with
    | .agent => if cb.state ≠ .stateClosed then cb.Reset else cb
    | .rag => if cb.state = .stateOpen then cb.Reset else cb
    | .llm => if cb.state = .stateOpen then cb.Reset else cb

/-- Counterexample to C6 as stated: a rag breaker in `HalfOpen` (e.g. via
`ForceHalfOpen`) stays `HalfOpen` after a successful probe — it is not forced
to `Closed`, because the rag branch resets only from `Open`. -/
theorem ready_halfopen_rag_not_closed :
    (readyResetBreaker .rag true ((NewCircuitBreaker 3 30).ForceHalfOpen)).state
      = .stateHalfOpen ∧
    (readyResetBreaker .rag true ((NewCircuitBreaker 3 30).ForceHalfOpen)).state
      ≠ .stateClosed := by
  decide

/-- C6 amended: on a successful probe, an `Open` breaker is forced to `Closed`
for every backend; for the agent backend any non-`Closed` state (including
`HalfOpen`) is forced to `Closed`; for the rag and llm backends a `HalfOpen`
breaker is left unchanged. -/
theorem ready_reset_per_service (svc : ServiceName) (cb : CircuitBreaker) :
    (cb.state = .stateOpen → (readyResetBreaker svc true cb).state = .stateClosed) ∧
    (svc = .agent → cb.state ≠ .stateClosed →
      (readyResetBreaker svc true cb).state = .stateClosed) ∧
    ((svc = .rag ∨ svc = .llm) → cb.state = .stateHalfOpen →
      readyResetBreaker svc true cb = cb) := by
  cases svc <;>
    refine ⟨fun hs => ?_, fun hsvc hs => ?_, fun hsvc hs => ?_⟩ <;>
    simp_all [readyResetBreaker, CircuitBreaker.Reset]

/-- Witness for `ready_reset_per_service`: an open rag breaker closes on a
successful probe; a half-open agent breaker closes; a half-open llm breaker is
untouched. -/
theorem ready_reset_per_service_witness :
    (readyResetBreaker .rag true ⟨3, 3, 30, some 7, .stateOpen⟩).state = .stateClosed ∧
    (readyResetBreaker .agent true ((NewCircuitBreaker 3 30).ForceHalfOpen)).state
      = .stateClosed ∧
    readyResetBreaker .llm true ((NewCircuitBreaker 3 30).ForceHalfOpen)
      = (NewCircuitBreaker 3 30).ForceHalfOpen :=
  ⟨(ready_reset_per_service .rag ⟨3, 3, 30, some 7, .stateOpen⟩).1 rfl,
   (ready_reset_per_service .agent ((NewCircuitBreaker 3 30).ForceHalfOpen)).2.1
      rfl (by decide),
   (ready_reset_per_service .llm ((NewCircuitBreaker 3 30).ForceHalfOpen)).2.2
      (Or.inr rfl) rfl⟩

end Handlers

namespace Middleware

/-- An inbound request as seen by `LoggingMiddleware`: the value of its
`X-Request-ID` header (`r.Header.Get` returns `""` when the header is
absent). -/
structure LogRequest where
  xRequestId : String
deriving DecidableEq, Repr

/-- The response produced by the wrapped handler chain: its final status code
and the value of the `X-Request-ID` header on the response
(`""` when the header is absent). -/
structure LogResponse where
  statusCode : Nat
  xRequestId : String
deriving DecidableEq, Repr

/-- The correlation fields of the structured `LogEntry` emitted at the end of
the request (logging.go lines 49-57). -/
structure CorrelationLogEntry where
  requestId : String
  statusCode : Nat
deriving DecidableEq, Repr

/-- `LoggingMiddleware` from logging.go: read `X-Request-ID` from the request,
generate a fresh id (`generateRequestID()`, modelled by `genId`, a UUID and
hence never `""`) when it is empty, set it back on the *request* headers,
run the wrapped handler, and emit the log entry.  The middleware sets no
header on the response writer: the response is returned exactly as the inner
handler produced it. -/
def LoggingMiddleware (next : LogRequest → LogResponse) (genId : String)
    (req : LogRequest) : LogResponse × CorrelationLogEntry :=
  let requestId := if req.xRequestId = "" then genId else req.xRequestId
  let resp := next { xRequestId := requestId }
  (resp, { requestId := requestId, statusCode := resp.statusCode })

/-- An inner handler modelled on `HealthHandler`: writes status 200 and no
`X-Request-ID` response header. -/
def healthNext : LogRequest → LogResponse :=
  fun _ => { statusCode := 200, xRequestId := "" }

/-- An inner handler that echoes the correlation id it received back onto the
response (what a cooperating backend would have to do for the response to
carry the id). -/
def echoNext : LogRequest → LogResponse :=
  fun r => { statusCode := 200, xRequestId := r.xRequestId }

/-- Counterexample to C8 as stated: a request with no upstream correlation id
whose inner handler (here the health handler) sets no `X-Request-ID` response
header yields a response that does not carry the assigned correlation id —
`LoggingMiddleware` assigns the id to the request headers and the log entry
only, never to the response. -/
theorem logging_response_lacks_id :
    (LoggingMiddleware healthNext "id-1" { xRequestId := "" }).2.requestId = "id-1" ∧
    (LoggingMiddleware healthNext "id-1" { xRequestId := "" }).1.xRequestId
      ≠ (LoggingMiddleware healthNext "id-1" { xRequestId := "" }).2.requestId := by
  exact ⟨rfl, by decide⟩

/-- C8 amended: `LoggingMiddleware` assigns a correlation id when none was
supplied (the generated id is never empty), records it in the log entry, and
passes it to the wrapped handler via the request headers; the response is
returned exactly as the inner handler produced it, so the response carries the
id only if the inner handler (or the backend it proxies) set it. -/
theorem logging_request_id_assigned (next : LogRequest → LogResponse)
    (genId : String) (req : LogRequest) (hgen : genId ≠ "") :
    (LoggingMiddleware next genId req).2.requestId
      = (if req.xRequestId = "" then genId else req.xRequestId) ∧
    (LoggingMiddleware next genId req).2.requestId ≠ "" ∧
    (LoggingMiddleware next genId req).1
      = next { xRequestId := (LoggingMiddleware next genId req).2.requestId } := by
  by_cases hreq : req.xRequestId = ""
  · refine ⟨?_, ?_, ?_⟩ <;> simp [LoggingMiddleware, hreq, hgen]
  · refine ⟨?_, ?_, ?_⟩ <;> simp [LoggingMiddleware, hreq]

/-- Witness for `logging_request_id_assigned`: with no upstream id and the
echoing inner handler, the assigned id "uuid-7" is recorded in the log entry
and is non-empty. -/
theorem logging_request_id_assigned_witness :
    (LoggingMiddleware echoNext "uuid-7" { xRequestId := "" }).2.requestId ≠ "" :=
  (logging_request_id_assigned echoNext "uuid-7" { xRequestId := "" } (by decide)).2.1

end Middleware
